import Mathlib

/-!
Verification development for the Alpha tour-operator backend.

The registration write path of the server (file src/index.js, the final
revision) is embedded shallowly: request-body scalars become a JsValue
type, the JavaScript Number() coercion becomes toNumber, the Supabase
table becomes an explicit DbState, and the local fallback JSON file
becomes a list of records.  External outcomes that the code only reacts
to (insert error, file-write failure, the random hex token, the clock)
are passed as explicit parameters.  JavaScript numbers are modelled as
rationals: the code performs no arithmetic on them beyond coercion and
comparison, so no rounding behaviour is lost.
-/

namespace Alpha

/-- JSON scalar values as delivered by the request body parser, plus
undefined for an absent field.  Composite values (objects, arrays) do
not occur in the registration payload fields and are not modelled. -/
inductive JsValue where
  | undef
  | null
  | bool (b : Bool)
  | num (x : ℚ)
  | str (s : String)
deriving DecidableEq

/-- Result of the JavaScript Number() coercion: a finite numeric value,
one of the two infinities, or NaN. -/
inductive JsNum where
  | nan
  | inf
  | negInf
  | val (x : ℚ)
deriving DecidableEq

/-- JavaScript truthiness of a scalar: undefined, null, false, 0 and the
empty string are falsy, everything else is truthy. -/
def truthy : JsValue → Bool
  | .undef => false
  | .null => false
  | .bool b => b
  | .num x => decide (x ≠ 0)
  | .str s => decide (s ≠ "")

/-- Numeric value of an unsigned decimal digit string. -/
def digitsVal (l : List Char) : Nat :=
  l.foldl (fun n c => 10 * n + (c.toNat - 48)) 0

/-- Check that every character of the list is a decimal digit. -/
def allDigits (l : List Char) : Bool :=
  l.all (fun c => c.isDigit)

/-- Whitespace characters trimmed by the Number() coercion: space, tab,
line feed, carriage return, vertical tab, form feed, no-break space and
the byte order mark. -/
def isJsSpace (c : Char) : Bool :=
  c = ' ' || c = '\t' || c = '\n' || c = '\r' ||
    c = '\x0b' || c = '\x0c' || c = '\u00A0' || c = '\uFEFF'

/-- Leading and trailing whitespace removed from a character list. -/
def trimChars (l : List Char) : List Char :=
  ((l.dropWhile isJsSpace).reverse.dropWhile isJsSpace).reverse

/-- Character list split at every character satisfying the predicate. -/
def splitBy (p : Char → Bool) : List Char → List (List Char)
  | [] => [[]]
  | c :: rest =>
      let r := splitBy p rest
      if p c then [] :: r
      else
        match r with
        | [] => [[c]]
        | h :: t => (c :: h) :: t

/-- Character list split at every dot. -/
def splitDot (l : List Char) : List (List Char) :=
  splitBy (fun c => decide (c = '.')) l

/-- Character list split at every exponent marker. -/
def splitExp (l : List Char) : List (List Char) :=
  splitBy (fun c => c = 'e' || c = 'E') l

/-- Parse the mantissa of a decimal literal, digits with an optional
fraction part, into its digit value and the length of the fraction. -/
def parseMantissa (l : List Char) : Option (Nat × Nat) :=
  match splitDot l with
  | [a] =>
      if a ≠ [] && allDigits a then some (digitsVal a, 0) else none
  | [a, b] =>
      if (a ≠ [] || b ≠ []) && allDigits a && allDigits b then
        some (digitsVal (a ++ b), b.length)
      else none
  | _ => none

/-- Parse an optionally signed decimal exponent. -/
def parseExp (l : List Char) : Option Int :=
  match l with
  | '+' :: rest =>
      if rest ≠ [] && allDigits rest then some ((digitsVal rest : Nat) : Int)
      else none
  | '-' :: rest =>
      if rest ≠ [] && allDigits rest then some (-((digitsVal rest : Nat) : Int))
      else none
  | l2 =>
      if l2 ≠ [] && allDigits l2 then some ((digitsVal l2 : Nat) : Int)
      else none

/-- Value of a digit sequence shifted by a signed power of ten. -/
def tenShift (n : Nat) (sh : Int) : ℚ :=
  if 0 ≤ sh then mkRat (n * 10 ^ sh.toNat) 1 else mkRat n (10 ^ (-sh).toNat)

/-- Parse an unsigned decimal literal with optional fraction and
optional exponent part to a rational; none when the characters are not
such a literal. -/
def parseDecBody (l : List Char) : Option ℚ :=
  match splitExp l with
  | [m] => (parseMantissa m).map (fun p => mkRat p.1 (10 ^ p.2))
  | [m, e] =>
      match parseMantissa m, parseExp e with
      | some p, some ex => some (tenShift p.1 (ex - (p.2 : Int)))
      | _, _ => none
  | _ => none

/-- Value of a character as a digit of the given base, when it is one. -/
def digitValIn (base : Nat) (c : Char) : Option Nat :=
  let d :=
    if c.isDigit then some (c.toNat - 48)
    else if 'a' ≤ c && c ≤ 'f' then some (c.toNat - 87)
    else if 'A' ≤ c && c ≤ 'F' then some (c.toNat - 55)
    else none
  match d with
  | some v => if v < base then some v else none
  | none => none

/-- Value of a non-empty digit sequence in the given base; none when a
character is not a digit of that base. -/
def baseVal (base : Nat) (l : List Char) : Option Nat :=
  if l = [] then none
  else
    l.foldl
      (fun acc c =>
        match acc, digitValIn base c with
        | some n, some d => some (base * n + d)
        | _, _ => none)
      (some 0)

/-- Character spelling of the Infinity literal. -/
def infinityChars : List Char := ['I', 'n', 'f', 'i', 'n', 'i', 't', 'y']

/-- JavaScript Number() on a string, following the StringNumericLiteral
grammar: whitespace is trimmed, the empty string is 0, an optionally
signed decimal literal (with optional fraction and exponent) or signed
Infinity is its value, an unsigned hex, octal or binary literal is its
value, anything else is NaN. -/
def strToNum (s : String) : JsNum :=
  match trimChars s.toList with
  | [] => .val 0
  | '-' :: rest =>
      if rest = infinityChars then .negInf
      else (parseDecBody rest).elim .nan (fun q => .val (-q))
  | '+' :: rest =>
      if rest = infinityChars then .inf
      else (parseDecBody rest).elim .nan .val
  | l =>
      if l = infinityChars then .inf
      else
        match l with
        | '0' :: 'x' :: rest => (baseVal 16 rest).elim .nan (fun n => .val n)
        | '0' :: 'X' :: rest => (baseVal 16 rest).elim .nan (fun n => .val n)
        | '0' :: 'o' :: rest => (baseVal 8 rest).elim .nan (fun n => .val n)
        | '0' :: 'O' :: rest => (baseVal 8 rest).elim .nan (fun n => .val n)
        | '0' :: 'b' :: rest => (baseVal 2 rest).elim .nan (fun n => .val n)
        | '0' :: 'B' :: rest => (baseVal 2 rest).elim .nan (fun n => .val n)
        | l2 => (parseDecBody l2).elim .nan .val

/-- JavaScript Number() coercion on a scalar value. -/
def toNumber : JsValue → JsNum
  | .undef => .nan
  | .null => .val 0
  | .bool b => if b then .val 1 else .val 0
  | .num x => .val x
  | .str s => strToNum s

/-- Truthiness of a coerced number: NaN and 0 are falsy, the two
infinities are truthy. -/
def JsNum.truthy : JsNum → Bool
  | .nan => false
  | .inf => true
  | .negInf => true
  | .val x => decide (x ≠ 0)

/-- JavaScript expression a OR d for a coerced number a and a numeric
default d, as in Number(people) OR 1. -/
def jsOr (a : JsNum) (d : ℚ) : JsNum :=
  if a.truthy then a else .val d

/-- Data interpolated into the booking message template string of the
insert payload; the textual rendering of the template abstracts over
JavaScript number formatting, so the message is kept as its data. -/
structure BookingMsg where
  tourTitle : JsValue
  people : JsNum
  totalPrice : JsNum
deriving DecidableEq

/-- Column payload of a registration row: the insert object of the POST
handler together with the two timestamp columns. -/
structure RegData where
  name : JsValue
  email : JsValue
  phone : JsValue
  tourTitle : JsValue
  people : JsNum
  unitPrice : JsNum
  totalPrice : JsNum
  status : String
  message : BookingMsg
  created_at : Nat
  updated_at : Nat
deriving DecidableEq

/-- Identifier of a stored record: the numeric key assigned by the
database, or the random hex token generated for a local fallback. -/
inductive RecId where
  | dbId (n : Nat)
  | localId (s : String)
deriving DecidableEq

/-- A registration record as it appears in the fallback log file and in
responses. -/
structure Registration where
  id : RecId
  data : RegData
deriving DecidableEq

/-- A row of the Alpha_registration_data table, keyed by the numeric id. -/
structure DbRow where
  id : Nat
  data : RegData
deriving DecidableEq

/-- View of a database row as a registration record. -/
def DbRow.toReg (r : DbRow) : Registration :=
  ⟨RecId.dbId r.id, r.data⟩

/-- State of the registration table: its rows and the next identity key. -/
structure DbState where
  rows : List DbRow
  nextId : Nat
deriving DecidableEq

/-- Error object returned by a failed Supabase call, with the four
fields the POST handler copies into its response. -/
structure DbError where
  code : String
  message : String
  details : String
  hint : String
deriving DecidableEq

/-- Request payload of POST /api/registrations. -/
structure RawInput where
  name : JsValue
  email : JsValue
  phone : JsValue
  people : JsValue
  tourTitle : JsValue
  unitPrice : JsValue
  totalPrice : JsValue
deriving DecidableEq

/-- Response of POST /api/registrations. -/
structure CreateResp where
  status : Nat
  success : Bool
  message : String
  data : Option Registration
  supabaseError : Option DbError
deriving DecidableEq

/-- Presence check of the POST handler: all five required fields truthy. -/
def validInput (i : RawInput) : Bool :=
  truthy i.name && truthy i.email && truthy i.phone &&
    truthy i.tourTitle && truthy i.totalPrice

/-- Normalized insert payload built by the POST handler for a validated
input, together with the creation timestamp that the database (on the
success path) or the fallback writer (on the failure path) attaches. -/
def insertRecord (input : RawInput) (now : Nat) : RegData :=
  let people := jsOr (toNumber input.people) 1
  let totalPrice := toNumber input.totalPrice
  { name := input.name, email := input.email, phone := input.phone,
    tourTitle := input.tourTitle, people := people,
    unitPrice := jsOr (toNumber input.unitPrice) 0, totalPrice := totalPrice,
    status := "undone",
    message := ⟨input.tourTitle, people, totalPrice⟩,
    created_at := now, updated_at := now }

/-- Handler of POST /api/registrations from src/index.js.  Parameters
ins (insert outcome), logOk (whether the fallback file could be read
and written), tok (the generated hex token) and now (the clock) stand
for the external effects the code consumes.  Returns the response, the
new table state and the new log contents. -/
def create (input : RawInput) (db : DbState) (log : List Registration)
    (ins : Option DbError) (logOk : Bool) (tok : String) (now : Nat) :
    CreateResp × DbState × List Registration :=
  if validInput input = false then
    (⟨400, false, "Name, Email, Phone, Tour Title, and Total Price are required.",
      none, none⟩, db, log)
  else
    if toNumber input.totalPrice = .nan ∨ toNumber input.totalPrice = .val 0 then
      (⟨400, false, "Total price must be a valid number greater than 0.",
        none, none⟩, db, log)
    else
      let rec0 : RegData := insertRecord input now
      match ins with
      | some e =>
          let fallback : Registration := ⟨RecId.localId tok, rec0⟩
          let log2 := if logOk then log ++ [fallback] else log
          (⟨500, false, "Failed to save to database. Check server logs.",
            some fallback, some e⟩, db, log2)
      | none =>
          let row : DbRow := ⟨db.nextId, rec0⟩
          let db2 : DbState := ⟨db.rows ++ [row], db.nextId + 1⟩
          let log2 := if logOk then log ++ [row.toReg] else log
          (⟨201, true, "Tour booking saved successfully to database!",
            some row.toReg, none⟩, db2, log2)

/-- Ordering requested from the database by the GET handler: created_at
descending (newest first). -/
def createdGe (a b : DbRow) : Prop :=
  b.data.created_at ≤ a.data.created_at

instance : DecidableRel createdGe :=
  fun _ _ => Nat.decLe _ _

instance : IsTotal DbRow createdGe :=
  ⟨fun a b => Nat.le_total b.data.created_at a.data.created_at⟩

instance : IsTrans DbRow createdGe :=
  ⟨fun _ _ _ h1 h2 => Nat.le_trans h2 h1⟩

/-- Rows sorted by created_at descending, as the select with order
created_at ascending false returns them. -/
def sortByCreatedDesc (l : List DbRow) : List DbRow :=
  List.insertionSort createdGe l

/-- Sortedness of the ordered result. -/
theorem sortByCreatedDesc_sorted (l : List DbRow) :
    (sortByCreatedDesc l).Sorted createdGe :=
  List.sorted_insertionSort createdGe l

/-- Permutation property of the ordered result. -/
theorem sortByCreatedDesc_perm (l : List DbRow) :
    (sortByCreatedDesc l).Perm l :=
  List.perm_insertionSort createdGe l

/-- Response of GET /api/admin/registrations: the rows on success, none
on a fetch error (the body then carries success false). -/
structure ListResp where
  status : Nat
  data : Option (List DbRow)
deriving DecidableEq

/-- Handler of GET /api/admin/registrations from src/index.js.  The
status query parameter filters only when it is exactly done or undone;
dbErr stands for a fetch error from the database. -/
def listRegs (filter : Option String) (db : DbState) (dbErr : Bool) : ListResp :=
  if dbErr then ⟨500, none⟩
  else
    match filter with
    | some s =>
        if s = "done" ∨ s = "undone" then
          ⟨200, some (sortByCreatedDesc (db.rows.filter (fun r => decide (r.data.status = s))))⟩
        else ⟨200, some (sortByCreatedDesc db.rows)⟩
    | none => ⟨200, some (sortByCreatedDesc db.rows)⟩

/-- Status validation of the PATCH handler: the body value passes the
strict comparisons only when it is exactly the string done or undone. -/
def statusOf : JsValue → Option String
  | .str s => if s = "done" ∨ s = "undone" then some s else none
  | _ => none

/-- JavaScript Number() on a stored record id: a numeric key is itself,
a local hex token goes through string coercion. -/
def RecId.toNumber : RecId → JsNum
  | .dbId n => .val (n : ℚ)
  | .localId s => strToNum s

/-- Response of PATCH /api/admin/registrations/:id. -/
structure UpdateResp where
  status : Nat
  success : Bool
  data : Option Registration
deriving DecidableEq

/-- Best-effort sync of the fallback log after a database update: the
first entry whose id coerces to the numeric key is replaced wholesale
by the updated row; no match leaves the log unchanged. -/
def syncLog (log : List Registration) (q : ℚ) (upd : Registration) :
    List Registration :=
  match log.findIdx? (fun r => decide (r.id.toNumber = JsNum.val q)) with
  | some i => log.set i upd
  | none => log

/-- Database-side effect of the update call: every row matching the key
gets the new status and timestamp. -/
def applyUpd (s : String) (now : Nat) (q : ℚ) (r : DbRow) : DbRow :=
  if (r.id : ℚ) = q then ⟨r.id, { r.data with status := s, updated_at := now }⟩
  else r

/-- Handler of PATCH /api/admin/registrations/:id from src/index.js.
Parameters logOk (fallback file readable and writable) and updErr (the
database update call failed) stand for external outcomes.  Only a NaN
coercion of the id is rejected with 400; a non-finite coercion passes
the check but the eq filter on the integer key can match no row for it,
so the select finds nothing and the handler answers 404 with both
stores untouched (these two arms inline that lookup outcome). -/
def updateStatus (id : String) (stV : JsValue) (db : DbState)
    (log : List Registration) (now : Nat) (logOk : Bool) (updErr : Bool) :
    UpdateResp × DbState × List Registration :=
  match statusOf stV with
  | none => (⟨400, false, none⟩, db, log)
  | some s =>
      match strToNum id with
      | .nan => (⟨400, false, none⟩, db, log)
      | .inf => (⟨404, false, none⟩, db, log)
      | .negInf => (⟨404, false, none⟩, db, log)
      | .val q =>
          match db.rows.find? (fun r => decide ((r.id : ℚ) = q)) with
          | none => (⟨404, false, none⟩, db, log)
          | some r0 =>
              if updErr then (⟨500, false, none⟩, db, log)
              else
                let upd : DbRow := ⟨r0.id, { r0.data with status := s, updated_at := now }⟩
                let db2 : DbState := ⟨db.rows.map (applyUpd s now q), db.nextId⟩
                let log2 := if logOk then syncLog log q upd.toReg else log
                (⟨200, true, some upd.toReg⟩, db2, log2)

/-- Emptiness of a record identifier when rendered into a response: a
numeric database key is never empty, a local token is empty only when
the token string is. -/
def RecId.isNonEmpty : RecId → Bool
  | .dbId _ => true
  | .localId s => decide (s ≠ "")

/-! Fixtures used by witnesses and counterexamples. -/

/-- Valid booking payload from the scenario in the specification. -/
def sampleIn : RawInput :=
  { name := .str "A", email := .str "a@x.com", phone := .str "1",
    people := .num 2, tourTitle := .str "Samarkand Tour",
    unitPrice := .num 50, totalPrice := .num 100 }

/-- Fresh database state. -/
def dbEmpty : DbState := ⟨[], 1⟩

/-- Concrete insert error as Supabase reports one. -/
def errNull : DbError := ⟨"23502", "null value in column", "", ""⟩

/-- Concrete value of the generated 16-byte hex token. -/
def tokHex : String := "9f86d081884c7d659a2feaa0c55ad015"

/-- Evaluation of the Number() model on representative inputs: exponent
notation, hex, octal and binary literals and signed Infinity are parsed
as JavaScript parses them; malformed strings are NaN; the empty string
is 0. -/
theorem strToNum_examples :
    strToNum "1e3" = JsNum.val 1000 ∧
    strToNum "2e1" = JsNum.val 20 ∧
    strToNum "0x10" = JsNum.val 16 ∧
    strToNum "0b101" = JsNum.val 5 ∧
    strToNum "0o17" = JsNum.val 15 ∧
    strToNum "Infinity" = JsNum.inf ∧
    strToNum "-Infinity" = JsNum.negInf ∧
    strToNum "-0x10" = JsNum.nan ∧
    strToNum "1e" = JsNum.nan ∧
    strToNum "1.2e-1" = JsNum.val (mkRat 12 100) ∧
    strToNum "" = JsNum.val 0 ∧
    strToNum "1.5" = JsNum.val (mkRat 3 2) ∧
    strToNum "abc" = JsNum.nan := by
  decide

/-! Unfolding equations for the three outcomes of the POST handler. -/

/-- Evaluation of the POST handler when the presence check fails. -/
theorem create_invalid_eq (input : RawInput) (db : DbState)
    (log : List Registration) (ins : Option DbError) (logOk : Bool)
    (tok : String) (now : Nat) (hv : validInput input = false) :
    create input db log ins logOk tok now =
      (⟨400, false, "Name, Email, Phone, Tour Title, and Total Price are required.",
        none, none⟩, db, log) := by
  simp only [create]
  rw [if_pos hv]

/-- Evaluation of the POST handler when the coerced total price is NaN
or zero. -/
theorem create_badtotal_eq (input : RawInput) (db : DbState)
    (log : List Registration) (ins : Option DbError) (logOk : Bool)
    (tok : String) (now : Nat) (hv : validInput input = true)
    (ht : toNumber input.totalPrice = JsNum.nan ∨
      toNumber input.totalPrice = JsNum.val 0) :
    create input db log ins logOk tok now =
      (⟨400, false, "Total price must be a valid number greater than 0.",
        none, none⟩, db, log) := by
  simp only [create]
  rw [if_neg (by simp [hv]), if_pos ht]

/-- Evaluation of the POST handler when validation passes and the
database insert fails. -/
theorem create_fail_eq (input : RawInput) (db : DbState)
    (log : List Registration) (e : DbError) (logOk : Bool)
    (tok : String) (now : Nat) (hv : validInput input = true)
    (hn : toNumber input.totalPrice ≠ JsNum.nan)
    (hz : toNumber input.totalPrice ≠ JsNum.val 0) :
    create input db log (some e) logOk tok now =
      (⟨500, false, "Failed to save to database. Check server logs.",
        some ⟨RecId.localId tok, insertRecord input now⟩, some e⟩,
       db,
       if logOk then log ++ [⟨RecId.localId tok, insertRecord input now⟩]
       else log) := by
  simp only [create]
  rw [if_neg (by simp [hv]), if_neg (by simp [hn, hz])]

/-- Evaluation of the POST handler when validation passes and the
database insert succeeds. -/
theorem create_ok_eq (input : RawInput) (db : DbState)
    (log : List Registration) (logOk : Bool) (tok : String) (now : Nat)
    (hv : validInput input = true)
    (hn : toNumber input.totalPrice ≠ JsNum.nan)
    (hz : toNumber input.totalPrice ≠ JsNum.val 0) :
    create input db log none logOk tok now =
      (⟨201, true, "Tour booking saved successfully to database!",
        some ⟨RecId.dbId db.nextId, insertRecord input now⟩, none⟩,
       ⟨db.rows ++ [⟨db.nextId, insertRecord input now⟩], db.nextId + 1⟩,
       if logOk then log ++ [⟨RecId.dbId db.nextId, insertRecord input now⟩]
       else log) := by
  simp only [create]
  rw [if_neg (by simp [hv]), if_neg (by simp [hn, hz])]
  rfl

/-! Claim C1: response on a failed database insert. -/

/-- C1, counterexample: for the validated sample input whose database
insert fails, the handler responds with HTTP status 500, not 201 as the
claim states; the body does carry success false, the fallback record
and the supabase error detail. -/
theorem create_dbfail_not_201 :
    (create sampleIn dbEmpty [] (some errNull) true tokHex 5).1.status = 500 ∧
    ¬ (create sampleIn dbEmpty [] (some errNull) true tokHex 5).1.status = 201 := by
  decide

/-- C1 (amended): for every Create call whose input passes validation
and whose database insert fails, the service generates a local id from
the fresh token, appends the record to the registration log when the
log write succeeds, leaves the database unchanged, and responds with
HTTP status 500 whose body has success false and includes the stored
record and the underlying database error detail. -/
theorem create_dbfail_degraded (input : RawInput) (db : DbState)
    (log : List Registration) (e : DbError) (logOk : Bool)
    (tok : String) (now : Nat) (hv : validInput input = true)
    (hn : toNumber input.totalPrice ≠ JsNum.nan)
    (hz : toNumber input.totalPrice ≠ JsNum.val 0) :
    (create input db log (some e) logOk tok now).1.status = 500 ∧
    (create input db log (some e) logOk tok now).1.success = false ∧
    (create input db log (some e) logOk tok now).1.data =
      some ⟨RecId.localId tok, insertRecord input now⟩ ∧
    (create input db log (some e) logOk tok now).1.supabaseError = some e ∧
    (create input db log (some e) logOk tok now).2.1 = db ∧
    (logOk = true → (create input db log (some e) logOk tok now).2.2 =
      log ++ [⟨RecId.localId tok, insertRecord input now⟩]) ∧
    (logOk = false → (create input db log (some e) logOk tok now).2.2 = log) := by
  rw [create_fail_eq input db log e logOk tok now hv hn hz]
  exact ⟨rfl, rfl, rfl, rfl, rfl,
    fun h => by rw [h, if_pos rfl], fun h => by rw [h, if_neg (by simp)]⟩

/-- C1, witness: the amended theorem applied to the sample input. -/
theorem create_dbfail_degraded_witness :
    validInput sampleIn = true ∧
    toNumber sampleIn.totalPrice ≠ JsNum.nan ∧
    toNumber sampleIn.totalPrice ≠ JsNum.val 0 ∧
    (create sampleIn dbEmpty [] (some errNull) true tokHex 5).1.status = 500 ∧
    (create sampleIn dbEmpty [] (some errNull) true tokHex 5).2.2 =
      [⟨RecId.localId tokHex, insertRecord sampleIn 5⟩] :=
  ⟨by decide, by decide, by decide,
    (create_dbfail_degraded sampleIn dbEmpty [] errNull true tokHex 5
      (by decide) (by decide) (by decide)).1,
    by
      have h := (create_dbfail_degraded sampleIn dbEmpty [] errNull true tokHex 5
        (by decide) (by decide) (by decide)).2.2.2.2.2.1 rfl
      simpa using h⟩

/-- Decomposition of a passed presence check into its five conjuncts. -/
theorem validInput_parts (i : RawInput) (h : validInput i = true) :
    truthy i.name = true ∧ truthy i.email = true ∧ truthy i.phone = true ∧
    truthy i.tourTitle = true ∧ truthy i.totalPrice = true := by
  unfold validInput at h
  repeat rw [Bool.and_eq_true] at h
  exact ⟨h.1.1.1.1, h.1.1.1.2, h.1.1.2, h.1.2, h.2⟩

/-! Claim C2: validation failures reject the request with no persistence. -/

/-- C2, counterexample: a negative total price is not greater than zero,
yet the sample input with total price -5 is accepted with status 201 and
the record is persisted to the database; the claim that such an input
fails with a validation error is false. -/
theorem create_negative_total_accepted :
    (create { sampleIn with totalPrice := .num (-5) }
      dbEmpty [] none true tokHex 5).1.status = 201 ∧
    ¬ (create { sampleIn with totalPrice := .num (-5) }
      dbEmpty [] none true tokHex 5).1.status = 400 ∧
    (create { sampleIn with totalPrice := .num (-5) }
      dbEmpty [] none true tokHex 5).2.1.rows.length = 1 ∧
    toNumber { sampleIn with totalPrice := JsValue.num (-5) }.totalPrice =
      JsNum.val (-5) := by
  decide

/-- C2 (amended): for every Create input in which name, email, phone or
tourTitle is missing or empty (falsy), or in which totalPrice is missing
or falsy, or coerces to NaN or to zero, Create fails with HTTP 400 and
neither the database nor the log is changed.  Negative total prices are
accepted, so not greater than zero must be weakened to zero. -/
theorem create_validation_rejects (input : RawInput) (db : DbState)
    (log : List Registration) (ins : Option DbError) (logOk : Bool)
    (tok : String) (now : Nat)
    (h : truthy input.name = false ∨ truthy input.email = false ∨
      truthy input.phone = false ∨ truthy input.tourTitle = false ∨
      truthy input.totalPrice = false ∨
      toNumber input.totalPrice = JsNum.nan ∨
      toNumber input.totalPrice = JsNum.val 0) :
    (create input db log ins logOk tok now).1.status = 400 ∧
    (create input db log ins logOk tok now).1.success = false ∧
    (create input db log ins logOk tok now).2.1 = db ∧
    (create input db log ins logOk tok now).2.2 = log := by
  rcases Bool.eq_false_or_eq_true (validInput input) with hv | hv
  case inr =>
    rw [create_invalid_eq input db log ins logOk tok now hv]
    exact ⟨rfl, rfl, rfl, rfl⟩
  case inl =>
    obtain ⟨h1, h2, h3, h4, h6⟩ := validInput_parts input hv
    have ht : toNumber input.totalPrice = JsNum.nan ∨
        toNumber input.totalPrice = JsNum.val 0 := by
      rcases h with h | h | h | h | h | h | h
      · rw [h1] at h; cases h
      · rw [h2] at h; cases h
      · rw [h3] at h; cases h
      · rw [h4] at h; cases h
      · rw [h6] at h; cases h
      · exact Or.inl h
      · exact Or.inr h
    rw [create_badtotal_eq input db log ins logOk tok now hv ht]
    exact ⟨rfl, rfl, rfl, rfl⟩

/-- C2, witness: the amended theorem applied to the sample input with a
zero total price. -/
theorem create_validation_rejects_witness :
    (truthy { sampleIn with totalPrice := JsValue.num 0 }.totalPrice = false ∨
      truthy { sampleIn with totalPrice := JsValue.num 0 }.name = false ∨ False) ∧
    (create { sampleIn with totalPrice := .num 0 }
      dbEmpty [] none true tokHex 5).1.status = 400 ∧
    (create { sampleIn with totalPrice := .num 0 }
      dbEmpty [] none true tokHex 5).2.1 = dbEmpty :=
  ⟨Or.inl (by decide),
    (create_validation_rejects { sampleIn with totalPrice := .num 0 }
      dbEmpty [] none true tokHex 5 (Or.inr (Or.inr (Or.inr (Or.inr
        (Or.inl (by decide))))))).1,
    (create_validation_rejects { sampleIn with totalPrice := .num 0 }
      dbEmpty [] none true tokHex 5 (Or.inr (Or.inr (Or.inr (Or.inr
        (Or.inl (by decide))))))).2.2.1⟩

/-! Claim C3: every accepted registration is stored somewhere. -/

/-- C3, counterexample: when the database insert and the log write both
fail, the handler still returns the record in the response body, yet the
database is unchanged and the log is empty, so the record exists in
neither store. -/
theorem create_double_failure_stored_nowhere :
    ((create sampleIn dbEmpty [] (some errNull) false tokHex 5).1.data).isSome
      = true ∧
    (create sampleIn dbEmpty [] (some errNull) false tokHex 5).2.1.rows = [] ∧
    (create sampleIn dbEmpty [] (some errNull) false tokHex 5).2.2 = [] := by
  decide

/-- C3 (amended): for every registration returned by Create, the record
exists in the database when the insert succeeded, and otherwise exists
in the registration log provided the log write itself succeeded; when
both the insert and the log write fail, the record is returned but
stored nowhere. -/
theorem create_accepted_record_stored (input : RawInput) (db : DbState)
    (log : List Registration) (ins : Option DbError) (logOk : Bool)
    (tok : String) (now : Nat) (hv : validInput input = true)
    (hn : toNumber input.totalPrice ≠ JsNum.nan)
    (hz : toNumber input.totalPrice ≠ JsNum.val 0) :
    ∃ rec, (create input db log ins logOk tok now).1.data = some rec ∧
      (ins = none →
        rec ∈ (create input db log ins logOk tok now).2.1.rows.map DbRow.toReg) ∧
      (ins ≠ none → logOk = true →
        rec ∈ (create input db log ins logOk tok now).2.2) := by
  cases ins with
  | none =>
      refine ⟨⟨RecId.dbId db.nextId, insertRecord input now⟩, ?_, ?_, ?_⟩
      · rw [create_ok_eq input db log logOk tok now hv hn hz]
      · intro _
        rw [create_ok_eq input db log logOk tok now hv hn hz]
        simp [DbRow.toReg]
      · intro hc
        exact absurd rfl hc
  | some e =>
      refine ⟨⟨RecId.localId tok, insertRecord input now⟩, ?_, ?_, ?_⟩
      · rw [create_fail_eq input db log e logOk tok now hv hn hz]
      · intro hc
        cases hc
      · intro _ hlo
        rw [create_fail_eq input db log e logOk tok now hv hn hz]
        simp [hlo]

/-- C3, witness: the amended theorem applied to the sample input with a
failing insert and a succeeding log write. -/
theorem create_accepted_record_stored_witness :
    validInput sampleIn = true ∧
    (∃ rec,
      (create sampleIn dbEmpty [] (some errNull) true tokHex 5).1.data = some rec ∧
      rec ∈ (create sampleIn dbEmpty [] (some errNull) true tokHex 5).2.2) := by
  refine ⟨by decide, ?_⟩
  obtain ⟨rec, hdata, _, hlog⟩ :=
    create_accepted_record_stored sampleIn dbEmpty [] (some errNull) true tokHex 5
      (by decide) (by decide) (by decide)
  exact ⟨rec, hdata, hlog (by simp) rfl⟩

/-! Claim C4: successful create response. -/

/-- C4 (C4 confirmed): for every valid Create input whose database
insert succeeds, the handler responds 201 with success true, the
returned record has status undone and the non-empty database-assigned
id, and the outcome of the best-effort log mirror write never changes
the response returned to the caller. -/
theorem create_success_response (input : RawInput) (db : DbState)
    (log : List Registration) (logOk : Bool) (tok : String) (now : Nat)
    (hv : validInput input = true)
    (hn : toNumber input.totalPrice ≠ JsNum.nan)
    (hz : toNumber input.totalPrice ≠ JsNum.val 0) :
    (create input db log none logOk tok now).1.status = 201 ∧
    (create input db log none logOk tok now).1.success = true ∧
    (create input db log none logOk tok now).1.data =
      some ⟨RecId.dbId db.nextId, insertRecord input now⟩ ∧
    (insertRecord input now).status = "undone" ∧
    (RecId.dbId db.nextId).isNonEmpty = true ∧
    (create input db log none true tok now).1 =
      (create input db log none false tok now).1 := by
  rw [create_ok_eq input db log logOk tok now hv hn hz,
    create_ok_eq input db log true tok now hv hn hz,
    create_ok_eq input db log false tok now hv hn hz]
  exact ⟨rfl, rfl, rfl, rfl, rfl, rfl⟩

/-- C4, witness: the theorem applied to the sample input on a fresh
database. -/
theorem create_success_response_witness :
    validInput sampleIn = true ∧
    (create sampleIn dbEmpty [] none true tokHex 5).1.status = 201 ∧
    (create sampleIn dbEmpty [] none true tokHex 5).1.success = true ∧
    (insertRecord sampleIn 5).status = "undone" :=
  ⟨by decide,
    (create_success_response sampleIn dbEmpty [] true tokHex 5
      (by decide) (by decide) (by decide)).1,
    (create_success_response sampleIn dbEmpty [] true tokHex 5
      (by decide) (by decide) (by decide)).2.1,
    (create_success_response sampleIn dbEmpty [] true tokHex 5
      (by decide) (by decide) (by decide)).2.2.2.1⟩

/-! Claim C10: normalization of the people field. -/

/-- Evaluation of the truthiness fallback at NaN. -/
theorem jsOr_nan (d : ℚ) : jsOr JsNum.nan d = JsNum.val d := rfl

/-- Evaluation of the truthiness fallback at zero. -/
theorem jsOr_zero (d : ℚ) : jsOr (JsNum.val 0) d = JsNum.val d := by
  simp [jsOr, JsNum.truthy]

/-- Evaluation of the truthiness fallback at a nonzero number. -/
theorem jsOr_val (x d : ℚ) (hx : x ≠ 0) : jsOr (JsNum.val x) d = JsNum.val x := by
  simp [jsOr, JsNum.truthy, hx]

/-- C10 (confirmed): for every Create input that passes validation, the
people field of the record built for storage is the numeric coercion
with a truthiness fallback: an absent value, a value coercing to NaN
and a zero all become 1, while any other numeric value, negative and
non-integer values included, is kept unchanged. -/
theorem create_people_normalization (input : RawInput) (db : DbState)
    (log : List Registration) (ins : Option DbError) (logOk : Bool)
    (tok : String) (now : Nat) (hv : validInput input = true)
    (hn : toNumber input.totalPrice ≠ JsNum.nan)
    (hz : toNumber input.totalPrice ≠ JsNum.val 0) :
    ∀ rec, (create input db log ins logOk tok now).1.data = some rec →
      rec.data.people = jsOr (toNumber input.people) 1 ∧
      (input.people = JsValue.undef → rec.data.people = JsNum.val 1) ∧
      (toNumber input.people = JsNum.nan → rec.data.people = JsNum.val 1) ∧
      (toNumber input.people = JsNum.val 0 → rec.data.people = JsNum.val 1) ∧
      (∀ x : ℚ, x ≠ 0 → toNumber input.people = JsNum.val x →
        rec.data.people = JsNum.val x) := by
  have hbody : ∀ rec, (create input db log ins logOk tok now).1.data = some rec →
      rec.data.people = jsOr (toNumber input.people) 1 := by
    cases ins with
    | none =>
        rw [create_ok_eq input db log logOk tok now hv hn hz]
        intro rec hrec
        cases hrec
        rfl
    | some e =>
        rw [create_fail_eq input db log e logOk tok now hv hn hz]
        intro rec hrec
        cases hrec
        rfl
  intro rec hrec
  have hp := hbody rec hrec
  refine ⟨hp, ?_, ?_, ?_, ?_⟩
  · intro hu; rw [hp, hu]; rfl
  · intro hu; rw [hp, hu, jsOr_nan]
  · intro hu; rw [hp, hu, jsOr_zero]
  · intro x hx hu; rw [hp, hu, jsOr_val x 1 hx]

/-- C10, witness: the theorem applied to the sample input, whose people
field is the number 2 and is stored unchanged. -/
theorem create_people_normalization_witness :
    validInput sampleIn = true ∧
    ((create sampleIn dbEmpty [] none true tokHex 5).1.data).isSome = true ∧
    (∀ rec, (create sampleIn dbEmpty [] none true tokHex 5).1.data = some rec →
      rec.data.people = JsNum.val 2) := by
  refine ⟨by decide, by decide, ?_⟩
  intro rec hrec
  have h := (create_people_normalization sampleIn dbEmpty [] none true tokHex 5
    (by decide) (by decide) (by decide) rec hrec).2.2.2.2 2 (by norm_num) (by decide)
  exact h

/-- Concrete stored payload used by witnesses. -/
def dataA : RegData :=
  { name := .str "A", email := .str "a@x.com", phone := .str "1",
    tourTitle := .str "T", people := .val 2, unitPrice := .val 50,
    totalPrice := .val 100, status := "undone",
    message := ⟨.str "T", .val 2, .val 100⟩, created_at := 3, updated_at := 3 }

/-- Database with a single row, key 7. -/
def dbOne : DbState := ⟨[⟨7, dataA⟩], 8⟩

/-- Database with one done row and one undone row. -/
def dbTwo : DbState :=
  ⟨[⟨1, { dataA with status := "done", created_at := 1, updated_at := 1 }⟩,
    ⟨2, { dataA with created_at := 2, updated_at := 2 }⟩], 3⟩

/-! Claim C5: listing with filter, ordering and failure. -/

/-- C5 (confirmed): a fetch error yields HTTP 500; a filter of exactly
done or undone returns exactly the rows with that status; any other
filter value yields the unfiltered full set; every returned sequence is
a permutation of the selected rows ordered by created_at descending. -/
theorem list_spec (db : DbState) :
    (∀ f : Option String, listRegs f db true = ⟨500, none⟩) ∧
    (∀ s, (s = "done" ∨ s = "undone") →
      (listRegs (some s) db false).data =
        some (sortByCreatedDesc
          (db.rows.filter (fun r => decide (r.data.status = s)))) ∧
      (∀ l, (listRegs (some s) db false).data = some l →
        (∀ r ∈ l, r.data.status = s) ∧
        l.Perm (db.rows.filter (fun r => decide (r.data.status = s))) ∧
        l.Sorted createdGe)) ∧
    (∀ s, s ≠ "done" → s ≠ "undone" →
      listRegs (some s) db false = listRegs none db false) ∧
    (∀ l, (listRegs none db false).data = some l →
      l.Perm db.rows ∧ l.Sorted createdGe) ∧
    (listRegs none db false).status = 200 := by
  refine ⟨?_, ?_, ?_, ?_, ?_⟩
  · intro f
    simp [listRegs]
  · intro s hs
    have hd : (listRegs (some s) db false).data =
        some (sortByCreatedDesc
          (db.rows.filter (fun r => decide (r.data.status = s)))) := by
      simp only [listRegs, if_neg (by simp : ¬ (false = true))]
      rw [if_pos hs]
    refine ⟨hd, ?_⟩
    intro l hl
    rw [hd] at hl
    cases hl
    refine ⟨?_, sortByCreatedDesc_perm _, sortByCreatedDesc_sorted _⟩
    intro r hr
    have hmem := (sortByCreatedDesc_perm _).mem_iff.mp hr
    exact of_decide_eq_true (List.mem_filter.mp hmem).2
  · intro s hs1 hs2
    simp only [listRegs, if_neg (by simp : ¬ (false = true))]
    rw [if_neg (by simp [hs1, hs2])]
  · intro l hl
    simp only [listRegs, if_neg (by simp : ¬ (false = true))] at hl
    cases hl
    exact ⟨sortByCreatedDesc_perm _, sortByCreatedDesc_sorted _⟩
  · simp [listRegs]

/-- C5, witness: the theorem applied to a two-row database, a done
filter, an unrecognized filter and a fetch error. -/
theorem list_spec_witness :
    ("done" = "done" ∨ "done" = "undone") ∧
    (listRegs (some "done") dbTwo false).data =
      some (sortByCreatedDesc
        (dbTwo.rows.filter (fun r => decide (r.data.status = "done")))) ∧
    listRegs (some "banana") dbTwo false = listRegs none dbTwo false ∧
    listRegs (some "x") dbTwo true = ⟨500, none⟩ := by
  refine ⟨Or.inl rfl, ((list_spec dbTwo).2.1 "done" (Or.inl rfl)).1, ?_, ?_⟩
  · exact (list_spec dbTwo).2.2.1 "banana" (by decide) (by decide)
  · exact (list_spec dbTwo).1 (some "x")

/-! Claim C6: update error paths. -/

/-- C6, counterexample: the id 1.5 does not parse as the numeric int8
key of the database table, yet the handler accepts it as a number and
answers 404 (no matching row), not 400 as the claim states. -/
theorem update_fractional_id_not_400 :
    (updateStatus "1.5" (.str "done") dbOne [] 9 true false).1.status = 404 ∧
    ¬ (updateStatus "1.5" (.str "done") dbOne [] 9 true false).1.status = 400 ∧
    strToNum "1.5" = JsNum.val (mkRat 3 2) := by
  decide

/-- C6 (amended): a status other than exactly done or undone fails with
400; an id whose Number() coercion is NaN fails with 400; an id that
coerces to a finite number matching no row, non-integer values that
cannot be a database key included, fails with 404, not 400; an id that
coerces to a non-finite number matches no integer key either and fails
with 404; and in each of these error cases neither the database nor the
log is mutated. -/
theorem update_error_paths (id : String) (stV : JsValue) (db : DbState)
    (log : List Registration) (now : Nat) (logOk : Bool) (updErr : Bool) :
    (statusOf stV = none →
      updateStatus id stV db log now logOk updErr = (⟨400, false, none⟩, db, log)) ∧
    (∀ s, statusOf stV = some s → strToNum id = JsNum.nan →
      updateStatus id stV db log now logOk updErr = (⟨400, false, none⟩, db, log)) ∧
    (∀ s q, statusOf stV = some s → strToNum id = JsNum.val q →
      db.rows.find? (fun r => decide ((r.id : ℚ) = q)) = none →
      updateStatus id stV db log now logOk updErr = (⟨404, false, none⟩, db, log)) ∧
    (∀ s, statusOf stV = some s →
      (strToNum id = JsNum.inf ∨ strToNum id = JsNum.negInf) →
      updateStatus id stV db log now logOk updErr = (⟨404, false, none⟩, db, log)) := by
  refine ⟨?_, ?_, ?_, ?_⟩
  · intro h
    simp only [updateStatus, h]
  · intro s hs hid
    simp only [updateStatus, hs, hid]
  · intro s q hs hid hfind
    simp only [updateStatus, hs, hid, hfind]
  · intro s hs hid
    rcases hid with hid | hid <;> simp only [updateStatus, hs, hid]

/-- C6, witness: the amended theorem applied at a bad status, a NaN id,
an unmatched numeric id and an Infinity id, against the one-row
database. -/
theorem update_error_paths_witness :
    statusOf (JsValue.str "maybe") = none ∧
    updateStatus "7" (.str "maybe") dbOne [] 9 true false
      = (⟨400, false, none⟩, dbOne, []) ∧
    strToNum "abc" = JsNum.nan ∧
    updateStatus "abc" (.str "done") dbOne [] 9 true false
      = (⟨400, false, none⟩, dbOne, []) ∧
    updateStatus "99" (.str "done") dbOne [] 9 true false
      = (⟨404, false, none⟩, dbOne, []) ∧
    strToNum "Infinity" = JsNum.inf ∧
    updateStatus "Infinity" (.str "done") dbOne [] 9 true false
      = (⟨404, false, none⟩, dbOne, []) := by
  refine ⟨by decide, ?_, by decide, ?_, ?_, by decide, ?_⟩
  · exact (update_error_paths "7" (.str "maybe") dbOne [] 9 true false).1 (by decide)
  · exact (update_error_paths "abc" (.str "done") dbOne [] 9 true false).2.1
      "done" (by decide) (by decide)
  · exact (update_error_paths "99" (.str "done") dbOne [] 9 true false).2.2.1
      "done" 99 (by decide) (by decide) (by decide)
  · exact (update_error_paths "Infinity" (.str "done") dbOne [] 9 true false).2.2.2
      "done" (by decide) (Or.inl (by decide))

/-- Database row after the update call has been applied to the matching
row. -/
def updatedRow (s : String) (now : Nat) (r0 : DbRow) : DbRow :=
  ⟨r0.id, { r0.data with status := s, updated_at := now }⟩

/-- Evaluation of the PATCH handler on its success path. -/
theorem updateStatus_ok_eq (id : String) (stV : JsValue) (db : DbState)
    (log : List Registration) (now : Nat) (logOk : Bool)
    (s : String) (q : ℚ) (r0 : DbRow)
    (hs : statusOf stV = some s) (hid : strToNum id = JsNum.val q)
    (hfind : db.rows.find? (fun r => decide ((r.id : ℚ) = q)) = some r0) :
    updateStatus id stV db log now logOk false =
      (⟨200, true, some (updatedRow s now r0).toReg⟩,
       ⟨db.rows.map (applyUpd s now q), db.nextId⟩,
       if logOk then syncLog log q (updatedRow s now r0).toReg else log) := by
  simp only [updateStatus, hs, hid, hfind, updatedRow]
  rfl

/-! Claim C7: log synchronization after a successful update. -/

/-- C7, counterexample: the log entry matching the updated id 7 had the
name B while the database row has the name A; after the update the log
entry carries the name A, so the sync changed a field other than status
and updatedAt (it replaces the entry with the database row wholesale). -/
theorem update_sync_overwrites_other_fields :
    ((updateStatus "7" (.str "done") dbOne
        [⟨RecId.dbId 7, { dataA with name := .str "B" }⟩] 9 true false).2.2.map
      (fun e => e.data.name)) = [JsValue.str "A"] ∧
    ¬ ([(⟨RecId.dbId 7, { dataA with name := .str "B" }⟩ : Registration)].map
      (fun e => e.data.name)) = [JsValue.str "A"] := by
  decide

/-- C7 (amended): after every successful database update, the handler
locates the first registration log entry whose id coerces numerically
to the updated key and replaces that entry wholesale with the updated
database row (which equals updating only status and updatedAt exactly
when the log entry mirrored the row); no match, or a failure to read or
write the log file, leaves the log unchanged, and the response returned
to the caller never depends on the log contents or the sync outcome. -/
theorem update_sync_replaces_entry (id : String) (stV : JsValue)
    (db : DbState) (log : List Registration) (now : Nat)
    (s : String) (q : ℚ) (r0 : DbRow)
    (hs : statusOf stV = some s) (hid : strToNum id = JsNum.val q)
    (hfind : db.rows.find? (fun r => decide ((r.id : ℚ) = q)) = some r0) :
    (∀ i, log.findIdx? (fun r => decide (r.id.toNumber = JsNum.val q)) = some i →
      (updateStatus id stV db log now true false).2.2 =
        log.set i (updatedRow s now r0).toReg) ∧
    (log.findIdx? (fun r => decide (r.id.toNumber = JsNum.val q)) = none →
      (updateStatus id stV db log now true false).2.2 = log) ∧
    (updateStatus id stV db log now false false).2.2 = log ∧
    (∀ log2 logOk1 logOk2,
      (updateStatus id stV db log now logOk1 false).1 =
        (updateStatus id stV db log2 now logOk2 false).1) := by
  refine ⟨?_, ?_, ?_, ?_⟩
  · intro i hi
    rw [updateStatus_ok_eq id stV db log now true s q r0 hs hid hfind]
    simp only [if_pos rfl, syncLog, hi, if_true]
  · intro hnone
    rw [updateStatus_ok_eq id stV db log now true s q r0 hs hid hfind]
    simp only [if_pos rfl, syncLog, hnone, if_true]
  · rw [updateStatus_ok_eq id stV db log now false s q r0 hs hid hfind]
    simp only [if_neg (by simp : ¬ (false = true))]
  · intro log2 logOk1 logOk2
    rw [updateStatus_ok_eq id stV db log now logOk1 s q r0 hs hid hfind,
      updateStatus_ok_eq id stV db log2 now logOk2 s q r0 hs hid hfind]

/-- C7, witness: the amended theorem applied to the one-row database
with a mirrored log entry; the matched entry at index 0 is replaced by
the updated row. -/
theorem update_sync_replaces_entry_witness :
    statusOf (JsValue.str "done") = some "done" ∧
    strToNum "7" = JsNum.val 7 ∧
    dbOne.rows.find? (fun r => decide ((r.id : ℚ) = 7)) = some ⟨7, dataA⟩ ∧
    (updateStatus "7" (.str "done") dbOne [⟨RecId.dbId 7, dataA⟩] 9 true false).2.2 =
      [⟨RecId.dbId 7, dataA⟩].set 0 (updatedRow "done" 9 ⟨7, dataA⟩).toReg := by
  refine ⟨by decide, by decide, by decide, ?_⟩
  exact (update_sync_replaces_entry "7" (.str "done") dbOne
    [⟨RecId.dbId 7, dataA⟩] 9 "done" 7 ⟨7, dataA⟩
    (by decide) (by decide) (by decide)).1 0 (by decide)

/-- Identifier preservation of the database-side update. -/
theorem applyUpd_id (s : String) (now : Nat) (q : ℚ) (r : DbRow) :
    (applyUpd s now q r).id = r.id := by
  unfold applyUpd
  split <;> rfl

/-- Evaluation of the database-side update on a matching row. -/
theorem applyUpd_pos (s : String) (now : Nat) (q : ℚ) (r : DbRow)
    (h : (r.id : ℚ) = q) : applyUpd s now q r = updatedRow s now r := by
  unfold applyUpd updatedRow
  rw [if_pos h]

/-- Evaluation of the database-side update on a non-matching row. -/
theorem applyUpd_neg (s : String) (now : Nat) (q : ℚ) (r : DbRow)
    (h : ¬ (r.id : ℚ) = q) : applyUpd s now q r = r := by
  unfold applyUpd
  rw [if_neg h]

/-- Commutation of find? with a map that preserves the predicate. -/
theorem find?_map_pres {α : Type} (g : α → α) (p : α → Bool)
    (hg : ∀ a, p (g a) = p a) : ∀ l : List α,
    (l.map g).find? p = (l.find? p).map g := by
  intro l
  induction l with
  | nil => rfl
  | cons a t ih =>
      by_cases hpa : p a = true
      · simp [List.find?_cons, hg a, hpa]
      · simp [List.find?_cons, hg a, hpa, ih]

/-- Restriction of a validated status value to the two permitted
strings. -/
theorem statusOf_cases (v : JsValue) (s : String) (h : statusOf v = some s) :
    s = "done" ∨ s = "undone" := by
  cases v with
  | str s2 =>
      simp only [statusOf] at h
      by_cases hc : s2 = "done" ∨ s2 = "undone"
      · rw [if_pos hc] at h
        cases h
        exact hc
      · rw [if_neg hc] at h
        cases h
  | undef => cases h
  | null => cases h
  | bool b => cases h
  | num x => cases h

/-- Status range invariant: every stored record, in the database and in
the log, has status undone or done. -/
def StatusOk (db : DbState) (log : List Registration) : Prop :=
  (∀ r ∈ db.rows, r.data.status = "undone" ∨ r.data.status = "done") ∧
  (∀ e ∈ log, e.data.status = "undone" ∨ e.data.status = "done")

/-- Shape of the state left by the POST handler: the database is either
unchanged or extended by one row carrying the insert payload, and the
log is either unchanged or extended by one record carrying the insert
payload. -/
theorem create_state_shape (input : RawInput) (db : DbState)
    (log : List Registration) (ins : Option DbError) (logOk : Bool)
    (tok : String) (now : Nat) :
    ((create input db log ins logOk tok now).2.1 = db ∨
      (create input db log ins logOk tok now).2.1 =
        ⟨db.rows ++ [⟨db.nextId, insertRecord input now⟩], db.nextId + 1⟩) ∧
    ((create input db log ins logOk tok now).2.2 = log ∨
      (create input db log ins logOk tok now).2.2 =
        log ++ [⟨RecId.localId tok, insertRecord input now⟩] ∨
      (create input db log ins logOk tok now).2.2 =
        log ++ [⟨RecId.dbId db.nextId, insertRecord input now⟩]) := by
  unfold create
  split
  · exact ⟨Or.inl rfl, Or.inl rfl⟩
  · split
    · exact ⟨Or.inl rfl, Or.inl rfl⟩
    · cases ins with
      | some e =>
          refine ⟨Or.inl rfl, ?_⟩
          cases logOk with
          | true => exact Or.inr (Or.inl (by simp))
          | false => exact Or.inl (by simp)
      | none =>
          refine ⟨Or.inr rfl, ?_⟩
          cases logOk with
          | true => exact Or.inr (Or.inr (by simp [DbRow.toReg]))
          | false => exact Or.inl (by simp)

/-- Shape of the state left by the PATCH handler: either nothing
changed, or the database rows went through the update map and the log
is unchanged or synced. -/
theorem update_state_shape (id : String) (stV : JsValue) (db : DbState)
    (log : List Registration) (now : Nat) (logOk : Bool) (updErr : Bool) :
    ((updateStatus id stV db log now logOk updErr).2.1 = db ∧
      (updateStatus id stV db log now logOk updErr).2.2 = log) ∨
    (∃ s q r0, statusOf stV = some s ∧ strToNum id = JsNum.val q ∧
      db.rows.find? (fun r => decide ((r.id : ℚ) = q)) = some r0 ∧
      (updateStatus id stV db log now logOk updErr).2.1 =
        ⟨db.rows.map (applyUpd s now q), db.nextId⟩ ∧
      ((updateStatus id stV db log now logOk updErr).2.2 = log ∨
        (updateStatus id stV db log now logOk updErr).2.2 =
          syncLog log q (updatedRow s now r0).toReg)) := by
  cases hso : statusOf stV with
  | none =>
      left
      simp only [updateStatus, hso]
      exact ⟨by trivial, by trivial⟩
  | some s =>
      cases hid : strToNum id with
      | nan =>
          left
          simp only [updateStatus, hso, hid]
          exact ⟨by trivial, by trivial⟩
      | inf =>
          left
          simp only [updateStatus, hso, hid]
          exact ⟨by trivial, by trivial⟩
      | negInf =>
          left
          simp only [updateStatus, hso, hid]
          exact ⟨by trivial, by trivial⟩
      | val q =>
          cases hfind : db.rows.find? (fun r => decide ((r.id : ℚ) = q)) with
          | none =>
              left
              simp only [updateStatus, hso, hid, hfind]
              exact ⟨by trivial, by trivial⟩
          | some r0 =>
              cases updErr with
              | true =>
                  left
                  simp only [updateStatus, hso, hid, hfind]
                  exact ⟨by trivial, by trivial⟩
              | false =>
                  right
                  refine ⟨s, q, r0, rfl, rfl, hfind, ?_, ?_⟩
                  · simp only [updateStatus, hso, hid, hfind]
                    rfl
                  · cases logOk with
                    | true =>
                        right
                        simp only [updateStatus, hso, hid, hfind, updatedRow]
                        rfl
                    | false =>
                        left
                        simp only [updateStatus, hso, hid, hfind]
                        rfl

/-- Preservation of the status range invariant by the POST handler. -/
theorem create_preserves_statusOk (input : RawInput) (db : DbState)
    (log : List Registration) (ins : Option DbError) (logOk : Bool)
    (tok : String) (now : Nat) (h : StatusOk db log) :
    StatusOk (create input db log ins logOk tok now).2.1
      (create input db log ins logOk tok now).2.2 := by
  obtain ⟨hdb, hlog⟩ := create_state_shape input db log ins logOk tok now
  constructor
  · rcases hdb with hdb | hdb <;> rw [hdb]
    · exact h.1
    · intro r hr
      rcases List.mem_append.mp hr with hr | hr
      · exact h.1 r hr
      · rcases List.mem_singleton.mp hr with rfl
        exact Or.inl rfl
  · rcases hlog with hlog | hlog | hlog <;> rw [hlog]
    · exact h.2
    · intro e he
      rcases List.mem_append.mp he with he | he
      · exact h.2 e he
      · rcases List.mem_singleton.mp he with rfl
        exact Or.inl rfl
    · intro e he
      rcases List.mem_append.mp he with he | he
      · exact h.2 e he
      · rcases List.mem_singleton.mp he with rfl
        exact Or.inl rfl

/-- Preservation of the status range invariant by the PATCH handler. -/
theorem update_preserves_statusOk (id : String) (stV : JsValue)
    (db : DbState) (log : List Registration) (now : Nat) (logOk : Bool)
    (updErr : Bool) (h : StatusOk db log) :
    StatusOk (updateStatus id stV db log now logOk updErr).2.1
      (updateStatus id stV db log now logOk updErr).2.2 := by
  rcases update_state_shape id stV db log now logOk updErr with
    ⟨hdb, hlog⟩ | ⟨s, q, r0, hso, _, _, hdb, hlog⟩
  · rw [hdb, hlog]
    exact h
  · have hsok : s = "done" ∨ s = "undone" := statusOf_cases stV s hso
    constructor
    · rw [hdb]
      intro r hr
      obtain ⟨a, ha, rfl⟩ := List.mem_map.mp hr
      by_cases hmatch : (a.id : ℚ) = q
      · rw [applyUpd_pos s now q a hmatch]
        exact hsok.symm.imp (fun h2 => h2) (fun h2 => h2)
      · rw [applyUpd_neg s now q a hmatch]
        exact h.1 a ha
    · rcases hlog with hlog | hlog <;> rw [hlog]
      · exact h.2
      · intro e he
        unfold syncLog at he
        rcases hidx : log.findIdx?
            (fun r => decide (r.id.toNumber = JsNum.val q)) with _ | i
        · rw [hidx] at he
          exact h.2 e he
        · rw [hidx] at he
          rcases List.mem_or_eq_of_mem_set he with he | rfl
          · exact h.2 e he
          · exact hsok.symm.imp (fun h2 => h2) (fun h2 => h2)

/-- Status and timestamp of every matching row after the update map. -/
theorem applyUpd_mem_status (s : String) (now : Nat) (q : ℚ) (l : List DbRow) :
    ∀ r ∈ l.map (applyUpd s now q), (r.id : ℚ) = q →
      r.data.status = s ∧ r.data.updated_at = now := by
  intro r hr hq
  obtain ⟨a, ha, rfl⟩ := List.mem_map.mp hr
  by_cases hm : (a.id : ℚ) = q
  · rw [applyUpd_pos s now q a hm]
    exact ⟨rfl, rfl⟩
  · rw [applyUpd_neg s now q a hm] at hq
    exact absurd hq hm

/-! Claim C9: applying done twice, and the status range invariant. -/

/-- C9 (confirmed): for an id naming an existing database row, applying
UpdateStatus done twice in a row returns and stores a record whose
status is done, with updatedAt advancing from the first clock to the
second; and both operations preserve the invariant that every stored
status is undone or done. -/
theorem update_done_twice_idempotent (id : String) (db : DbState)
    (log : List Registration) (now1 now2 : Nat) (logOk1 logOk2 : Bool)
    (q : ℚ) (r0 : DbRow)
    (hid : strToNum id = JsNum.val q)
    (hfind : db.rows.find? (fun r => decide ((r.id : ℚ) = q)) = some r0)
    (hlt : now1 < now2) :
    (updateStatus id (.str "done") db log now1 logOk1 false).1.data =
      some (updatedRow "done" now1 r0).toReg ∧
    (updateStatus id (.str "done")
        (updateStatus id (.str "done") db log now1 logOk1 false).2.1
        (updateStatus id (.str "done") db log now1 logOk1 false).2.2
        now2 logOk2 false).1.data =
      some (updatedRow "done" now2 r0).toReg ∧
    (updatedRow "done" now2 r0).data.status = "done" ∧
    (updatedRow "done" now1 r0).data.updated_at <
      (updatedRow "done" now2 r0).data.updated_at ∧
    (∀ r ∈ (updateStatus id (.str "done")
        (updateStatus id (.str "done") db log now1 logOk1 false).2.1
        (updateStatus id (.str "done") db log now1 logOk1 false).2.2
        now2 logOk2 false).2.1.rows,
      (r.id : ℚ) = q → r.data.status = "done" ∧ r.data.updated_at = now2) ∧
    (∀ input ins logOk tok now, StatusOk db log →
      StatusOk (create input db log ins logOk tok now).2.1
        (create input db log ins logOk tok now).2.2) ∧
    (∀ id2 stV2 now3 logOk3 updErr2, StatusOk db log →
      StatusOk (updateStatus id2 stV2 db log now3 logOk3 updErr2).2.1
        (updateStatus id2 stV2 db log now3 logOk3 updErr2).2.2) := by
  have hso : statusOf (.str "done") = some "done" := by decide
  have hmatch : (r0.id : ℚ) = q := by
    have h := List.find?_some hfind
    simpa using h
  have h1 := updateStatus_ok_eq id (.str "done") db log now1 logOk1
    "done" q r0 hso hid hfind
  have hfind2 : ((db.rows.map (applyUpd "done" now1 q)) : List DbRow).find?
      (fun r => decide ((r.id : ℚ) = q)) =
      some (updatedRow "done" now1 r0) := by
    rw [find?_map_pres (applyUpd "done" now1 q)
        (fun r => decide ((r.id : ℚ) = q))
        (fun a => by simp [applyUpd_id]) db.rows, hfind]
    simp [applyUpd_pos "done" now1 q r0 hmatch]
  refine ⟨?_, ?_, rfl, hlt, ?_, ?_, ?_⟩
  · rw [h1]
  · rw [h1]
    rw [updateStatus_ok_eq id (.str "done")
      ⟨db.rows.map (applyUpd "done" now1 q), db.nextId⟩
      (if logOk1 then syncLog log q (updatedRow "done" now1 r0).toReg else log)
      now2 logOk2 "done" q (updatedRow "done" now1 r0) hso hid hfind2]
    rfl
  · rw [h1]
    rw [updateStatus_ok_eq id (.str "done")
      ⟨db.rows.map (applyUpd "done" now1 q), db.nextId⟩
      (if logOk1 then syncLog log q (updatedRow "done" now1 r0).toReg else log)
      now2 logOk2 "done" q (updatedRow "done" now1 r0) hso hid hfind2]
    exact applyUpd_mem_status "done" now2 q _
  · intro input ins logOk tok now h
    exact create_preserves_statusOk input db log ins logOk tok now h
  · intro id2 stV2 now3 logOk3 updErr2 h
    exact update_preserves_statusOk id2 stV2 db log now3 logOk3 updErr2 h

/-- C9, witness: the theorem applied to the one-row database at key 7,
with clocks 9 and 10. -/
theorem update_done_twice_idempotent_witness :
    strToNum "7" = JsNum.val 7 ∧ (9 : Nat) < 10 ∧
    dbOne.rows.find? (fun r => decide ((r.id : ℚ) = 7)) = some ⟨7, dataA⟩ ∧
    (updateStatus "7" (.str "done")
        (updateStatus "7" (.str "done") dbOne [] 9 true false).2.1
        (updateStatus "7" (.str "done") dbOne [] 9 true false).2.2
        10 true false).1.data =
      some (updatedRow "done" 10 ⟨7, dataA⟩).toReg := by
  refine ⟨by decide, by decide, by decide, ?_⟩
  exact (update_done_twice_idempotent "7" dbOne [] 9 10 true true 7 ⟨7, dataA⟩
    (by decide) (by decide) (by decide)).2.1

/-! Claim C8: frame of the two stores.  The agreement relation below
names the columns that no operation may change on an existing record:
everything except status and updated_at, with created_at included so
that it is written exactly once, at creation. -/

/-- Agreement of two stored payloads on every column except status and
updated_at. -/
def AgreeExceptStatus (d1 d2 : RegData) : Prop :=
  d1.name = d2.name ∧ d1.email = d2.email ∧ d1.phone = d2.phone ∧
  d1.tourTitle = d2.tourTitle ∧ d1.people = d2.people ∧
  d1.unitPrice = d2.unitPrice ∧ d1.totalPrice = d2.totalPrice ∧
  d1.message = d2.message ∧ d1.created_at = d2.created_at

instance : ∀ d1 d2, Decidable (AgreeExceptStatus d1 d2) :=
  fun _ _ => by unfold AgreeExceptStatus; infer_instance

/-- Reflexivity of the agreement relation. -/
theorem agree_refl (d : RegData) : AgreeExceptStatus d d :=
  ⟨rfl, rfl, rfl, rfl, rfl, rfl, rfl, rfl, rfl⟩

/-- Symmetry of the agreement relation. -/
theorem agree_symm {d1 d2 : RegData} (h : AgreeExceptStatus d1 d2) :
    AgreeExceptStatus d2 d1 :=
  ⟨h.1.symm, h.2.1.symm, h.2.2.1.symm, h.2.2.2.1.symm, h.2.2.2.2.1.symm,
    h.2.2.2.2.2.1.symm, h.2.2.2.2.2.2.1.symm, h.2.2.2.2.2.2.2.1.symm,
    h.2.2.2.2.2.2.2.2.symm⟩

/-- Transitivity of the agreement relation. -/
theorem agree_trans {d1 d2 d3 : RegData} (h1 : AgreeExceptStatus d1 d2)
    (h2 : AgreeExceptStatus d2 d3) : AgreeExceptStatus d1 d3 :=
  ⟨h1.1.trans h2.1, h1.2.1.trans h2.2.1, h1.2.2.1.trans h2.2.2.1,
    h1.2.2.2.1.trans h2.2.2.2.1, h1.2.2.2.2.1.trans h2.2.2.2.2.1,
    h1.2.2.2.2.2.1.trans h2.2.2.2.2.2.1,
    h1.2.2.2.2.2.2.1.trans h2.2.2.2.2.2.2.1,
    h1.2.2.2.2.2.2.2.1.trans h2.2.2.2.2.2.2.2.1,
    h1.2.2.2.2.2.2.2.2.trans h2.2.2.2.2.2.2.2.2⟩

/-- Agreement of the updated row with the original row. -/
theorem updatedRow_agree (s : String) (now : Nat) (r : DbRow) :
    AgreeExceptStatus (updatedRow s now r).data r.data :=
  ⟨rfl, rfl, rfl, rfl, rfl, rfl, rfl, rfl, rfl⟩

/-- Agreement of the database-side update with the original row. -/
theorem applyUpd_agree (s : String) (now : Nat) (q : ℚ) (r : DbRow) :
    AgreeExceptStatus (applyUpd s now q r).data r.data := by
  by_cases hm : (r.id : ℚ) = q
  · rw [applyUpd_pos s now q r hm]
    exact updatedRow_agree s now r
  · rw [applyUpd_neg s now q r hm]
    exact agree_refl r.data

/-- Consistency invariant of the pair of stores, maintained by the
service from an empty log: database keys are unique and below the next
identity value; log entries carrying a database key stay below it too;
locally generated ids do not coerce to numbers (the 16-byte hex tokens
contain non-digit characters); and every log entry carrying the key of
a database row is a mirror of that row up to status and updated_at. -/
def GoodState (db : DbState) (log : List Registration) : Prop :=
  (db.rows.map DbRow.id).Nodup ∧
  (∀ r ∈ db.rows, r.id < db.nextId) ∧
  (∀ e ∈ log, ∀ n, e.id = RecId.dbId n → n < db.nextId) ∧
  (∀ e ∈ log, ∀ s2, e.id = RecId.localId s2 → strToNum s2 = JsNum.nan) ∧
  (∀ e ∈ log, ∀ r ∈ db.rows, e.id = RecId.dbId r.id →
    AgreeExceptStatus e.data r.data)

/-- Joint shape of the state left by the POST handler: the database and
the log change together in one of three ways. -/
theorem create_joint_shape (input : RawInput) (db : DbState)
    (log : List Registration) (ins : Option DbError) (logOk : Bool)
    (tok : String) (now : Nat) :
    ((create input db log ins logOk tok now).2.1 = db ∧
      (create input db log ins logOk tok now).2.2 = log) ∨
    ((create input db log ins logOk tok now).2.1 = db ∧
      (create input db log ins logOk tok now).2.2 =
        log ++ [⟨RecId.localId tok, insertRecord input now⟩]) ∨
    ((create input db log ins logOk tok now).2.1 =
        ⟨db.rows ++ [⟨db.nextId, insertRecord input now⟩], db.nextId + 1⟩ ∧
      ((create input db log ins logOk tok now).2.2 = log ∨
        (create input db log ins logOk tok now).2.2 =
          log ++ [⟨RecId.dbId db.nextId, insertRecord input now⟩])) := by
  unfold create
  split
  · exact Or.inl ⟨rfl, rfl⟩
  · split
    · exact Or.inl ⟨rfl, rfl⟩
    · cases ins with
      | some e =>
          cases logOk with
          | true => exact Or.inr (Or.inl ⟨rfl, by simp⟩)
          | false => exact Or.inl ⟨rfl, by simp⟩
      | none =>
          cases logOk with
          | true =>
              exact Or.inr (Or.inr ⟨rfl, Or.inr (by simp [DbRow.toReg])⟩)
          | false => exact Or.inr (Or.inr ⟨rfl, Or.inl (by simp)⟩)

/-- Frame of the database rows under the PATCH handler: positions and
identifiers are preserved and only status and updated_at may change. -/
theorem update_rows_frame (id : String) (stV : JsValue) (db : DbState)
    (log : List Registration) (now : Nat) (logOk : Bool) (updErr : Bool) :
    (updateStatus id stV db log now logOk updErr).2.1.rows.length
        = db.rows.length ∧
    ∀ i (h1 : i < db.rows.length)
        (h2 : i < (updateStatus id stV db log now logOk updErr).2.1.rows.length),
      ((updateStatus id stV db log now logOk updErr).2.1.rows.get ⟨i, h2⟩).id
          = (db.rows.get ⟨i, h1⟩).id ∧
      AgreeExceptStatus
        ((updateStatus id stV db log now logOk updErr).2.1.rows.get ⟨i, h2⟩).data
        (db.rows.get ⟨i, h1⟩).data := by
  rcases update_state_shape id stV db log now logOk updErr with
    ⟨hdb, _⟩ | ⟨s, q, r0, _, _, _, hdb, _⟩
  · rw [hdb]
    exact ⟨rfl, fun i h1 h2 => ⟨rfl, agree_refl _⟩⟩
  · rw [hdb]
    refine ⟨List.length_map db.rows _, fun i h1 h2 => ?_⟩
    have hg : (DbState.mk (db.rows.map (applyUpd s now q)) db.nextId).rows.get
        ⟨i, h2⟩ = applyUpd s now q (db.rows.get ⟨i, h1⟩) := by
      simp [List.get_eq_getElem, List.getElem_map]
    rw [hg]
    exact ⟨applyUpd_id s now q _, applyUpd_agree s now q _⟩

/-- Frame of the log under the PATCH handler in a consistent state:
every entry keeps every column except status and updated_at. -/
theorem update_log_frame (id : String) (stV : JsValue) (db : DbState)
    (log : List Registration) (now : Nat) (logOk : Bool) (updErr : Bool)
    (hgood : GoodState db log) :
    (updateStatus id stV db log now logOk updErr).2.2.length = log.length ∧
    ∀ j (h1 : j < log.length)
        (h2 : j < (updateStatus id stV db log now logOk updErr).2.2.length),
      AgreeExceptStatus
        ((updateStatus id stV db log now logOk updErr).2.2.get ⟨j, h2⟩).data
        ((log.get ⟨j, h1⟩).data) := by
  rcases update_state_shape id stV db log now logOk updErr with
    ⟨_, hlog⟩ | ⟨s, q, r0, hso, hid, hfind, _, hlog | hlog⟩
  · rw [hlog]
    exact ⟨rfl, fun j h1 h2 => agree_refl _⟩
  · rw [hlog]
    exact ⟨rfl, fun j h1 h2 => agree_refl _⟩
  · rw [hlog]
    unfold syncLog
    rcases hidx : log.findIdx? (fun r => decide (r.id.toNumber = JsNum.val q))
      with _ | i2
    · rw [hidx]
      exact ⟨rfl, fun j h1 h2 => agree_refl _⟩
    · rw [hidx]
      obtain ⟨hi2, hp, _⟩ := List.findIdx?_eq_some_iff_getElem.mp hidx
      have hnum : (log.get ⟨i2, hi2⟩).id.toNumber = JsNum.val q := by
        have := of_decide_eq_true hp
        simpa [List.get_eq_getElem] using this
      have hr0mem : r0 ∈ db.rows := List.mem_of_find?_eq_some hfind
      have hr0q : (r0.id : ℚ) = q := by
        have h := List.find?_some hfind
        simpa using h
      have hagree : AgreeExceptStatus
          ((updatedRow s now r0).toReg).data ((log.get ⟨i2, hi2⟩).data) := by
        rcases he : (log.get ⟨i2, hi2⟩).id with n | s2
        · have hn : (n : ℚ) = q := by
            rw [he] at hnum
            simpa [RecId.toNumber] using hnum
          have hnid : n = r0.id := by
            have := hn.trans hr0q.symm
            exact_mod_cast this
          have hmem : log.get ⟨i2, hi2⟩ ∈ log := List.get_mem log i2 hi2
          have he2 : (log.get ⟨i2, hi2⟩).id = RecId.dbId r0.id := by
            rw [he, hnid]
          have hlink := hgood.2.2.2.2 (log.get ⟨i2, hi2⟩) hmem r0 hr0mem he2
          exact agree_trans (updatedRow_agree s now r0) (agree_symm hlink)
        · have hmem : log.get ⟨i2, hi2⟩ ∈ log := List.get_mem log i2 hi2
          have hnan := hgood.2.2.2.1 (log.get ⟨i2, hi2⟩) hmem s2 he
          rw [he] at hnum
          simp [RecId.toNumber, hnan] at hnum
      refine ⟨List.length_set log i2 _, fun j h1 h2 => ?_⟩
      by_cases hji : j = i2
      · subst hji
        have hset : (log.set j (updatedRow s now r0).toReg).get ⟨j, h2⟩ =
            (updatedRow s now r0).toReg := by
          simp [List.get_eq_getElem]
        rw [hset]
        exact hagree
      · have hset : (log.set i2 (updatedRow s now r0).toReg).get ⟨j, h2⟩ =
            log.get ⟨j, h1⟩ := by
          simp [List.get_eq_getElem, List.getElem_set_ne (fun h => hji h.symm)]
        rw [hset]
        exact agree_refl _

/-- Preservation of the consistency invariant by the PATCH handler. -/
theorem update_preserves_good (id : String) (stV : JsValue) (db : DbState)
    (log : List Registration) (now : Nat) (logOk : Bool) (updErr : Bool)
    (hgood : GoodState db log) :
    GoodState (updateStatus id stV db log now logOk updErr).2.1
      (updateStatus id stV db log now logOk updErr).2.2 := by
  rcases update_state_shape id stV db log now logOk updErr with
    ⟨hdb, hlog⟩ | ⟨s, q, r0, hso, hid, hfind, hdb, hlogs⟩
  · rw [hdb, hlog]
    exact hgood
  · obtain ⟨hnodup, hbound, hlbound, hlocal, hmirror⟩ := hgood
    have hr0mem : r0 ∈ db.rows := List.mem_of_find?_eq_some hfind
    have hr0q : (r0.id : ℚ) = q := by
      have h := List.find?_some hfind
      simpa using h
    have hidmap : (db.rows.map (applyUpd s now q)).map DbRow.id
        = db.rows.map DbRow.id := by
      rw [List.map_map]
      exact List.map_congr_left (fun a _ => applyUpd_id s now q a)
    have hlogmem : ∀ e2 ∈ (updateStatus id stV db log now logOk updErr).2.2,
        e2 ∈ log ∨ e2 = (updatedRow s now r0).toReg := by
      rcases hlogs with hlog | hlog
      · rw [hlog]
        exact fun e2 he2 => Or.inl he2
      · rw [hlog]
        unfold syncLog
        rcases hidx : log.findIdx?
            (fun r => decide (r.id.toNumber = JsNum.val q)) with _ | i2
        · rw [hidx]
          exact fun e2 he2 => Or.inl he2
        · rw [hidx]
          exact fun e2 he2 => List.mem_or_eq_of_mem_set he2
    rw [hdb]
    refine ⟨?_, ?_, ?_, ?_, ?_⟩
    · show ((db.rows.map (applyUpd s now q)).map DbRow.id).Nodup
      rw [hidmap]
      exact hnodup
    · intro r hr
      obtain ⟨a, ha, rfl⟩ := List.mem_map.mp hr
      show (applyUpd s now q a).id < db.nextId
      rw [applyUpd_id]
      exact hbound a ha
    · intro e he n hid2
      rcases hlogmem e he with hmem | rfl
      · exact hlbound e hmem n hid2
      · have : RecId.dbId r0.id = RecId.dbId n := hid2
        cases this
        exact hbound r0 hr0mem
    · intro e he s2 hid2
      rcases hlogmem e he with hmem | rfl
      · exact hlocal e hmem s2 hid2
      · cases hid2
    · intro e2 he2 r2 hr2 hid2
      obtain ⟨a, ha, rfl⟩ := List.mem_map.mp hr2
      have hida : (applyUpd s now q a).id = a.id := applyUpd_id s now q a
      rcases hlogmem e2 he2 with hmem | rfl
      · have hm := hmirror e2 hmem a ha (by rw [hid2, hida])
        exact agree_trans hm (agree_symm (applyUpd_agree s now q a))
      · have hkey : RecId.dbId r0.id = RecId.dbId a.id := by
          have := hid2
          rw [hida] at this
          exact this
        have haid : a.id = r0.id := (RecId.dbId.inj hkey).symm
        have haeq : a = r0 :=
          List.inj_on_of_nodup_map hnodup ha hr0mem (by rw [haid])
        subst haeq
        rw [applyUpd_pos s now q a hr0q]
        exact agree_refl _

/-- Preservation of the consistency invariant by the POST handler,
assuming the generated hex token does not coerce to a number. -/
theorem create_preserves_good (input : RawInput) (db : DbState)
    (log : List Registration) (ins : Option DbError) (logOk : Bool)
    (tok : String) (now : Nat) (htok : strToNum tok = JsNum.nan)
    (hgood : GoodState db log) :
    GoodState (create input db log ins logOk tok now).2.1
      (create input db log ins logOk tok now).2.2 := by
  obtain ⟨hnodup, hbound, hlbound, hlocal, hmirror⟩ := hgood
  rcases create_joint_shape input db log ins logOk tok now with
    ⟨hdb, hlog⟩ | ⟨hdb, hlog⟩ | ⟨hdb, hlog | hlog⟩
  · rw [hdb, hlog]
    exact ⟨hnodup, hbound, hlbound, hlocal, hmirror⟩
  · rw [hdb, hlog]
    refine ⟨hnodup, hbound, ?_, ?_, ?_⟩
    · intro e he n hid2
      rcases List.mem_append.mp he with he | he
      · exact hlbound e he n hid2
      · rcases List.mem_singleton.mp he with rfl
        cases hid2
    · intro e he s2 hid2
      rcases List.mem_append.mp he with he | he
      · exact hlocal e he s2 hid2
      · rcases List.mem_singleton.mp he with rfl
        cases hid2
        exact htok
    · intro e2 he2 r2 hr2 hid2
      rcases List.mem_append.mp he2 with he2 | he2
      · exact hmirror e2 he2 r2 hr2 hid2
      · rcases List.mem_singleton.mp he2 with rfl
        cases hid2
  · rw [hdb, hlog]
    refine ⟨?_, ?_, ?_, hlocal, ?_⟩
    · show ((db.rows ++ [(⟨db.nextId, insertRecord input now⟩ : DbRow)]).map DbRow.id).Nodup
      rw [List.map_append]
      refine List.Nodup.append hnodup (List.nodup_singleton _) ?_
      intro x hx1 hx2
      obtain ⟨a, ha, rfl⟩ := List.mem_map.mp hx1
      have hx : DbRow.id a = db.nextId := by
        simpa using hx2
      exact absurd (hx ▸ hbound a ha) (lt_irrefl _)
    · intro r hr
      rcases List.mem_append.mp hr with hr | hr
      · exact Nat.lt_succ_of_lt (hbound r hr)
      · rcases List.mem_singleton.mp hr with rfl
        exact Nat.lt_succ_self _
    · intro e he n hid2
      exact Nat.lt_succ_of_lt (hlbound e he n hid2)
    · intro e2 he2 r2 hr2 hid2
      rcases List.mem_append.mp hr2 with hr2 | hr2
      · exact hmirror e2 he2 r2 hr2 hid2
      · rcases List.mem_singleton.mp hr2 with rfl
        exact absurd (hlbound e2 he2 db.nextId hid2) (lt_irrefl _)
  · rw [hdb, hlog]
    refine ⟨?_, ?_, ?_, ?_, ?_⟩
    · show ((db.rows ++ [(⟨db.nextId, insertRecord input now⟩ : DbRow)]).map DbRow.id).Nodup
      rw [List.map_append]
      refine List.Nodup.append hnodup (List.nodup_singleton _) ?_
      intro x hx1 hx2
      obtain ⟨a, ha, rfl⟩ := List.mem_map.mp hx1
      have hx : DbRow.id a = db.nextId := by
        simpa using hx2
      exact absurd (hx ▸ hbound a ha) (lt_irrefl _)
    · intro r hr
      rcases List.mem_append.mp hr with hr | hr
      · exact Nat.lt_succ_of_lt (hbound r hr)
      · rcases List.mem_singleton.mp hr with rfl
        exact Nat.lt_succ_self _
    · intro e he n hid2
      rcases List.mem_append.mp he with he | he
      · exact Nat.lt_succ_of_lt (hlbound e he n hid2)
      · rcases List.mem_singleton.mp he with rfl
        cases hid2
        exact Nat.lt_succ_self _
    · intro e he s2 hid2
      rcases List.mem_append.mp he with he | he
      · exact hlocal e he s2 hid2
      · rcases List.mem_singleton.mp he with rfl
        cases hid2
    · intro e2 he2 r2 hr2 hid2
      rcases List.mem_append.mp he2 with he2 | he2
      · rcases List.mem_append.mp hr2 with hr2 | hr2
        · exact hmirror e2 he2 r2 hr2 hid2
        · rcases List.mem_singleton.mp hr2 with rfl
          exact absurd (hlbound e2 he2 db.nextId hid2) (lt_irrefl _)
      · rcases List.mem_singleton.mp he2 with rfl
        rcases List.mem_append.mp hr2 with hr2 | hr2
        · have hkey : db.nextId = r2.id := RecId.dbId.inj hid2
          exact absurd (hbound r2 hr2) (by rw [← hkey]; exact lt_irrefl _)
        · rcases List.mem_singleton.mp hr2 with rfl
          exact agree_refl _

/-- C8 (confirmed): in a consistent state, every operation leaves all
fields of an existing stored registration other than status and
updated_at unchanged.  Create touches no existing record in either
store (the old contents stay as a prefix) and stamps created_at and
updated_at exactly once, at creation; UpdateStatus keeps every database
row and every log entry at its position with its identifier and all
columns except status and updated_at intact; and both operations
preserve the consistency invariant (Create under the assumption that
the fresh hex token does not coerce to a number), so the hypothesis is
maintained by the service itself from its initial empty stores. -/
theorem registration_frame (db : DbState) (log : List Registration)
    (hgood : GoodState db log) :
    (∀ input ins logOk tok now,
      (create input db log ins logOk tok now).2.1.rows.take db.rows.length
          = db.rows ∧
      (create input db log ins logOk tok now).2.2.take log.length = log ∧
      (∀ r ∈ (create input db log ins logOk tok now).2.1.rows,
        r ∈ db.rows ∨
          (r.data.created_at = now ∧ r.data.updated_at = now)) ∧
      (strToNum tok = JsNum.nan →
        GoodState (create input db log ins logOk tok now).2.1
          (create input db log ins logOk tok now).2.2)) ∧
    (∀ id stV now logOk updErr,
      (updateStatus id stV db log now logOk updErr).2.1.rows.length
          = db.rows.length ∧
      (∀ i (h1 : i < db.rows.length)
          (h2 : i < (updateStatus id stV db log now logOk updErr).2.1.rows.length),
        ((updateStatus id stV db log now logOk updErr).2.1.rows.get ⟨i, h2⟩).id
            = (db.rows.get ⟨i, h1⟩).id ∧
        AgreeExceptStatus
          ((updateStatus id stV db log now logOk updErr).2.1.rows.get ⟨i, h2⟩).data
          (db.rows.get ⟨i, h1⟩).data) ∧
      (updateStatus id stV db log now logOk updErr).2.2.length = log.length ∧
      (∀ j (h1 : j < log.length)
          (h2 : j < (updateStatus id stV db log now logOk updErr).2.2.length),
        AgreeExceptStatus
          ((updateStatus id stV db log now logOk updErr).2.2.get ⟨j, h2⟩).data
          ((log.get ⟨j, h1⟩).data)) ∧
      GoodState (updateStatus id stV db log now logOk updErr).2.1
        (updateStatus id stV db log now logOk updErr).2.2) := by
  constructor
  · intro input ins logOk tok now
    obtain ⟨hdbs, hlogs⟩ := create_state_shape input db log ins logOk tok now
    refine ⟨?_, ?_, ?_, fun htok => create_preserves_good input db log ins
      logOk tok now htok hgood⟩
    · rcases hdbs with hdb | hdb <;> rw [hdb]
      · exact List.take_length db.rows
      · exact List.take_left db.rows _
    · rcases hlogs with hlog | hlog | hlog <;> rw [hlog]
      · exact List.take_length log
      · exact List.take_left log _
      · exact List.take_left log _
    · rcases hdbs with hdb | hdb <;> rw [hdb]
      · exact fun r hr => Or.inl hr
      · intro r hr
        rcases List.mem_append.mp hr with hr | hr
        · exact Or.inl hr
        · rcases List.mem_singleton.mp hr with rfl
          exact Or.inr ⟨rfl, rfl⟩
  · intro id stV now logOk updErr
    obtain ⟨hlen1, hrows⟩ := update_rows_frame id stV db log now logOk updErr
    obtain ⟨hlen2, hlog⟩ := update_log_frame id stV db log now logOk updErr hgood
    exact ⟨hlen1, hrows, hlen2, hlog,
      update_preserves_good id stV db log now logOk updErr hgood⟩

/-- C8, witness: the theorem applied to the one-row database whose log
mirrors the row; the update keeps lengths and the invariant. -/
theorem registration_frame_witness :
    GoodState dbOne [⟨RecId.dbId 7, dataA⟩] ∧
    (updateStatus "7" (.str "done") dbOne [⟨RecId.dbId 7, dataA⟩]
      9 true false).2.2.length = 1 ∧
    GoodState
      (updateStatus "7" (.str "done") dbOne [⟨RecId.dbId 7, dataA⟩]
        9 true false).2.1
      (updateStatus "7" (.str "done") dbOne [⟨RecId.dbId 7, dataA⟩]
        9 true false).2.2 := by
  have hg : GoodState dbOne [⟨RecId.dbId 7, dataA⟩] := by
    refine ⟨by decide, by decide, ?_, ?_, ?_⟩
    · intro e he n hid2
      rcases List.mem_singleton.mp he with rfl
      cases hid2
      decide
    · intro e he s2 hid2
      rcases List.mem_singleton.mp he with rfl
      cases hid2
    · intro e he r hr hid2
      rcases List.mem_singleton.mp he with rfl
      rcases List.mem_singleton.mp hr with rfl
      exact agree_refl _
  have h := (registration_frame dbOne [⟨RecId.dbId 7, dataA⟩] hg).2
    "7" (.str "done") 9 true false
  exact ⟨hg, h.2.2.1, h.2.2.2.2⟩

end Alpha
